import Mathlib

/-!
Verification of the structured logging subsystem of the node-mini-framework
repository (`src/core/logger.core.js`), shallowly embedded in Lean 4.

The embedding models:
  * the severity enumeration and per-severity counters (`logStats`),
  * message construction in `record` (header, context, error name/code,
    stack rendering),
  * the stack-trace parser `parseStack` together with a faithful
    backtracking implementation of the two JavaScript regular expressions
    it uses,
  * the file sink `writeToFile` with size-based rotation and injected
    I/O failures (the `try/catch` around `fs` calls),
  * the public entry points `info`, `debug`, `log`, `warning`, `error`,
    `set`, `all`, `group`, `table`, `stats`, `clearStats`.

State is passed explicitly: `LogState` holds the in-memory counters, the
files of the current day's directory (an association list from file name
to content), an append-only journal of successful appends (file name and
appended line), the console output and the standard-error output.
External inputs that the source reads from the environment (the rendered
timestamp, the epoch-millisecond clock, the production flag, and whether
each `fs` primitive fails) are passed in an `Env`/`Inj` record.
-/

/-- The severity enumeration of the logger (`logStats` keys). -/
inductive Severity
  | info
  | debug
  | log
  | warning
  | error
  | all
deriving DecidableEq, Repr

/-- The string key of a severity, as used for `logStats` and file names. -/
def Severity.key : Severity → String
  | .info => "info"
  | .debug => "debug"
  | .log => "log"
  | .warning => "warning"
  | .error => "error"
  | .all => "all"

/-- `String.prototype.toUpperCase` restricted to ASCII, as used on
severity and layer names. -/
def jsToUpper (s : String) : String :=
  String.mk (s.data.map Char.toUpper)

/-- Per-severity counters (`Logger.logStats`). -/
structure Stats where
  info : Nat
  debug : Nat
  log : Nat
  warning : Nat
  error : Nat
  all : Nat
deriving DecidableEq, Repr

/-- Read one counter (`this.logStats[type]`). -/
def Stats.get (st : Stats) : Severity → Nat
  | .info => st.info
  | .debug => st.debug
  | .log => st.log
  | .warning => st.warning
  | .error => st.error
  | .all => st.all

/-- `this.logStats[type] = (this.logStats[type] || 0) + 1` (line 172):
exactly the counter of the recorded severity is incremented. -/
def Stats.bump (st : Stats) : Severity → Stats
  | .info => { st with info := st.info + 1 }
  | .debug => { st with debug := st.debug + 1 }
  | .log => { st with log := st.log + 1 }
  | .warning => { st with warning := st.warning + 1 }
  | .error => { st with error := st.error + 1 }
  | .all => { st with all := st.all + 1 }

/-- All counters zero (initial value, and the result of `clearStats`). -/
def Stats.zero : Stats := ⟨0, 0, 0, 0, 0, 0⟩

/-- An error-like payload value (`Error` instance fields used by the
logger: `message`, `name`, `stack`, `code`). -/
structure JsError where
  name : String
  message : String
  stack : Option String
  code : Option String
deriving DecidableEq, Repr

/-- The payload of a log call: either an `Error` instance or a plain
(string-coerced) value. -/
inductive Payload
  | err (e : JsError)
  | str (s : String)
deriving DecidableEq, Repr

/-- The result of `extractErrorInfo`: for an `Error` the four fields are
pulled from the value, otherwise only the stringified message is kept and
`name`, `stack`, `code` are absent (`undefined`). -/
structure ErrorInfo where
  message : String
  name : Option String
  stack : Option String
  code : Option String
deriving DecidableEq, Repr

/-- `extractErrorInfo` (lines 104-118). -/
def extractErrorInfo : Payload → ErrorInfo
  | .err e => ⟨e.message, Option.some e.name, e.stack, e.code⟩
  | .str s => ⟨s, Option.none, Option.none, Option.none⟩

/-- The value re-raised at line 220:
`err instanceof Error ? err : new Error(err)`. -/
inductive Thrown
  | orig (e : JsError)
  | wrapped (m : String)
deriving DecidableEq, Repr

/-- `err instanceof Error ? err : new Error(err)`. -/
def thrownOf : Payload → Thrown
  | .err e => .orig e
  | .str m => .wrapped m

/-- A context value supplied in `options.context`, abstracting the
JavaScript value kinds that `formatValue` distinguishes.  For objects the
result of `util.inspect` is external input: `obj (some r)` renders as
`r`, `obj none` means inspection throws (circular structure). -/
inductive CtxVal
  | nullV
  | undefV
  | obj (rendered : Option String)
  | strV (s : String)
  | numV (n : Int)
  | boolV (b : Bool)
deriving DecidableEq, Repr

/-- `formatValue` (lines 86-102). -/
def formatValue : CtxVal → String
  | .nullV => "null"
  | .undefV => "undefined"
  | .obj (Option.some r) => r
  | .obj Option.none => "[Circular or Invalid Object]"
  | .strV s => s
  | .numV n => toString n
  | .boolV b => if b then "true" else "false"

/-- JavaScript truthiness of a context value (`if (options.context)`). -/
def CtxVal.truthy : CtxVal → Bool
  | .nullV => false
  | .undefV => false
  | .obj _ => true
  | .strV s => s ≠ ""
  | .numV n => n ≠ 0
  | .boolV b => b

/-- The options bag of a log call (fields read by `record`). -/
structure Options where
  context : Option CtxVal := Option.none
  trace : Bool := false
  noThrow : Bool := false
deriving DecidableEq, Repr

/-- ANSI colour prefix per severity (`colorize`, lines 27-38). -/
def colorCode : Severity → String
  | .info => "\u001B[36m"
  | .debug => "\u001B[35m"
  | .log => "\u001B[37m"
  | .warning => "\u001B[33m"
  | .error => "\u001B[31m"
  | .all => "\u001B[34m"

/-- `colorize(type, text)`. -/
def colorize (type : Severity) (text : String) : String :=
  colorCode type ++ text ++ "\u001B[0m"

/-- `bold(text)` (line 40). -/
def bold (text : String) : String :=
  "\u001B[1m" ++ text ++ "\u001B[0m"

/-- `dim(text)` (line 44). -/
def dim (text : String) : String :=
  "\u001B[2m" ++ text ++ "\u001B[0m"

/-!
### Stack-trace parsing

`parseStack` (lines 120-148) splits the raw stack on newlines, drops the
first line, and matches each remaining line against
`/at\s+(.+?)\s+\((.+):(\d+):(\d+)\)/` and, failing that,
`/at\s+(.+):(\d+):(\d+)/`.  The two expressions are alternation-free
sequences of literals and `+`-quantified character classes, so we embed
them with a faithful backtracking matcher over token lists: a greedy
quantifier tries the longest repetition first, a lazy one the shortest,
and the overall search tries start positions from the left (JavaScript
`String.prototype.match` semantics for these patterns).
-/

/-- The JavaScript `\s` character class (WhiteSpace and LineTerminator
code points), which is also exactly the set removed by
`String.prototype.trim`. -/
def jsSpace (c : Char) : Bool :=
  c = ' ' || c = '\t' || c = '\n' || c.val = 0x0b || c.val = 0x0c || c = '\r' ||
  c.val = 0xa0 || c.val = 0x1680 || (0x2000 ≤ c.val && c.val ≤ 0x200a) ||
  c.val = 0x2028 || c.val = 0x2029 || c.val = 0x202f || c.val = 0x205f ||
  c.val = 0x3000 || c.val = 0xfeff

/-- The JavaScript `\d` character class. -/
def jsDigit (c : Char) : Bool :=
  '0' ≤ c && c ≤ '9'

/-- The JavaScript `.` character class (any character except the four
line terminators). -/
def jsDot (c : Char) : Bool :=
  !(c = '\n' || c = '\r' || c.val = 0x2028 || c.val = 0x2029)

/-- `String.prototype.trim` on a character list. -/
def trimCs (l : List Char) : List Char :=
  ((l.dropWhile jsSpace).reverse.dropWhile jsSpace).reverse

/-- `stack.split('\n')` on a character list: split at every newline,
keeping empty segments (JavaScript `String.prototype.split` semantics). -/
def splitOnNl : List Char → List (List Char)
  | [] => [[]]
  | c :: cs =>
    if c = '\n' then [] :: splitOnNl cs
    else
      match splitOnNl cs with
      | [] => [[c]]
      | h :: t => (c :: h) :: t

/-- One token of an alternation-free regular expression: a literal
character, or a `+`-quantified character class (greedy or lazy,
capturing or not). -/
inductive Tok
  | lit (c : Char)
  | rep (p : Char → Bool) (lazy : Bool) (cap : Bool)

/-- The candidate repetition counts for a `+` quantifier whose maximal
contiguous run has length `r`: `1..r` ascending for a lazy quantifier,
descending for a greedy one. -/
def lengthsFor (lz : Bool) (r : Nat) : List Nat :=
  if lz then (List.range r).map (· + 1)
  else ((List.range r).map (· + 1)).reverse

/-- First `some` result of `f` over a list, in order. -/
def firstSome (f : α → Option β) : List α → Option β
  | [] => Option.none
  | a :: as =>
    match f a with
    | Option.some b => Option.some b
    | Option.none => firstSome f as

/-- Backtracking matcher: try to match the token sequence at the start
of `cs` (a trailing remainder is allowed, as in an unanchored regex) and
return the captured groups in order. -/
def matchToks : List Tok → List Char → Option (List (List Char))
  | [], _ => Option.some []
  | .lit _ :: _, [] => Option.none
  | .lit c :: ts, x :: xs =>
    if x = c then matchToks ts xs else Option.none
  | .rep p lz cap :: ts, xs =>
    let r := (xs.takeWhile p).length
    firstSome
      (fun n =>
        (matchToks ts (xs.drop n)).map
          (fun caps => if cap then xs.take n :: caps else caps))
      (lengthsFor lz r)

/-- Unanchored search: try each start position from the left and return
the captures of the leftmost match (JavaScript `match` semantics). -/
def searchFrom (toks : List Tok) : List Char → Option (List (List Char))
  | [] => matchToks toks []
  | x :: xs =>
    match matchToks toks (x :: xs) with
    | Option.some caps => Option.some caps
    | Option.none => searchFrom toks xs

/-- `/at\s+(.+?)\s+\((.+):(\d+):(\d+)\)/` (line 126). -/
def re1 : List Tok :=
  [.lit 'a', .lit 't', .rep jsSpace false false, .rep jsDot true true,
   .rep jsSpace false false, .lit '(', .rep jsDot false true, .lit ':',
   .rep jsDigit false true, .lit ':', .rep jsDigit false true, .lit ')']

/-- `/at\s+(.+):(\d+):(\d+)/` (line 126). -/
def re2 : List Tok :=
  [.lit 'a', .lit 't', .rep jsSpace false false, .rep jsDot false true,
   .lit ':', .rep jsDigit false true, .lit ':', .rep jsDigit false true]

/-- Number of capturing groups of a token sequence. -/
def countCaps (toks : List Tok) : Nat :=
  toks.countP (fun t => match t with | .rep _ _ c => c | _ => false)

/-- An entry of the list returned by `parseStack`: either a parsed frame
(`{function, file, line, column}`) or an unparsed line (`{raw}`). -/
inductive StackItem
  | frame (function file line column : String)
  | raw (text : String)
deriving DecidableEq, Repr

/-- Is the entry a parsed frame? -/
def StackItem.isFrame : StackItem → Bool
  | .frame _ _ _ _ => true
  | .raw _ => false

/-- Is the entry an unparsed raw line? -/
def StackItem.isRaw : StackItem → Bool
  | .frame _ _ _ _ => false
  | .raw _ => true

/-- The filter at line 147: `item.file || item.raw` (a frame is kept when
its file is a non-empty string, a raw entry when its text is non-empty). -/
def keepItem : StackItem → Bool
  | .frame _ file _ _ => file ≠ ""
  | .raw t => t ≠ ""

/-- Classification of one stack line (the body of the `map` at lines
125-146): first regular expression wins and fills all four fields (the
function name is trimmed), the second fills `function` with
`"anonymous"`, otherwise the trimmed line is kept as a raw entry.  A
successful match of `re1` always carries four captures and one of `re2`
three, so the remaining patterns are unreachable. -/
def classifyLine (line : List Char) : StackItem :=
  match searchFrom re1 line with
  | Option.some (f :: file :: ln :: col :: _) =>
    .frame (String.mk (trimCs f)) (String.mk file) (String.mk ln) (String.mk col)
  | Option.some _ => .raw (String.mk (trimCs line))
  | Option.none =>
    match searchFrom re2 line with
    | Option.some (file :: ln :: col :: _) =>
      .frame "anonymous" (String.mk file) (String.mk ln) (String.mk col)
    | Option.some _ => .raw (String.mk (trimCs line))
    | Option.none => .raw (String.mk (trimCs line))

/-- Does the line match either of the two frame shapes? -/
def matchesEither (line : List Char) : Bool :=
  (searchFrom re1 line).isSome || (searchFrom re2 line).isSome

/-- The lines considered by `parseStack`: split on newlines, first line
discarded (`stack.split('\n').slice(1)`, line 123). -/
def stackLines (stack : String) : List (List Char) :=
  (splitOnNl stack.data).drop 1

/-- `parseStack` (lines 120-148).  The `if (!stack) return []` guard
covers the empty string (the only falsy value of the model). -/
def parseStack (stack : String) : List StackItem :=
  if stack = "" then []
  else ((stackLines stack).map classifyLine).filter keepItem

/-- Join with newlines (`lines.join('\n')`, line 168). -/
def joinNl : List String → String
  | [] => ""
  | [s] => s
  | s :: rest => s ++ "\n" ++ joinNl rest

/-- Rendering of one parsed item in `formatStack` (lines 154-166). -/
def formatStackItem (forConsole : Bool) : StackItem → String
  | .raw text => if forConsole then dim ("  " ++ text) else "  " ++ text
  | .frame function file line column =>
    let funcName := if function = "" then "anonymous" else function
    let location := file ++ ":" ++ line ++ ":" ++ column
    let prefixStr := if forConsole then dim "  →" else "  →"
    let formattedFunc := if forConsole then bold funcName else funcName
    let formattedLoc := if forConsole then dim location else location
    prefixStr ++ " " ++ formattedFunc ++ " (" ++ formattedLoc ++ ")"

/-- `formatStack` (lines 150-169). -/
def formatStack (stack : String) (forConsole : Bool) : String :=
  let parsed := parseStack stack
  if parsed = [] then ""
  else "\n" ++ joinNl (parsed.map (formatStackItem forConsole))

/-!
### File sink and logger state

`writeToFile` (lines 67-84) targets the current day's directory; we model
that directory as an association list from file name to content.  The
`try/catch` around the `fs` calls is modelled by an injection record
`Inj`: each fallible primitive (`statSync`, `renameSync`,
`appendFileSync`) either succeeds or throws with a given message, in
which case the `catch` prints `Failed to write log: <message>` to the
standard error stream and the function returns normally, leaving the
file system as it was at the point of failure.
-/

/-- `MAX_LOG_SIZE = 10 * 1024 * 1024` (line 9). -/
def MAX_LOG_SIZE : Nat := 10 * 1024 * 1024

/-- The current day's directory: file name to file content. -/
def Fs := List (String × String)

/-- Look up a file's content (`fs.existsSync` / reading for `statSync`). -/
def fsLookup (fs : Fs) (name : String) : Option String :=
  ((fs : List (String × String)).find? (fun p => p.1 = name)).map Prod.snd

/-- Create or overwrite a file. -/
def fsSet : Fs → String → String → Fs
  | [], n, c => [(n, c)]
  | (k, v) :: rest, n, c =>
    if k = n then (n, c) :: rest else (k, v) :: fsSet rest n c

/-- Remove a file (file names are unique, so removing every binding of
the name is the same as removing its one binding). -/
def fsRemove (fs : Fs) (n : String) : Fs :=
  (fs : List (String × String)).filter (fun p => p.1 ≠ n)

/-- A console output event: a `console.log` line or a `console.table`
rendering. -/
inductive ConsoleOut
  | line (s : String)
  | table (rows : List String)
deriving DecidableEq, Repr

/-- The logger's observable state. -/
structure LogState where
  stats : Stats
  fs : Fs
  journal : List (String × String)
  console : List ConsoleOut
  stderr : List String

/-- Failure injection for the three fallible `fs` primitives used by
`writeToFile`: `none` means the primitive succeeds, `some m` means it
throws an error whose `message` is `m`. -/
structure Inj where
  statFail : Option String
  renameFail : Option String
  appendFail : Option String
deriving DecidableEq, Repr

/-- All `fs` primitives succeed. -/
def Inj.ok : Inj := ⟨Option.none, Option.none, Option.none⟩

/-- The `catch` at lines 81-83: `console.error('Failed to write log:',
err.message)`. -/
def failMsg (m : String) : String := "Failed to write log: " ++ m

/-- The `fs.appendFileSync(file, message + '\n', { flag: 'a' })` step at
line 80 (creates the file when absent); a successful append is also
recorded in the journal. -/
def appendStep (inj : Inj) (file message : String) (s : LogState) : LogState :=
  match inj.appendFail with
  | Option.some m => { s with stderr := s.stderr ++ [failMsg m] }
  | Option.none =>
    let old := (fsLookup s.fs file).getD ""
    { s with
      fs := fsSet s.fs file (old ++ message ++ "\n"),
      journal := s.journal ++ [(file, message)] }

/-- `writeToFile(type, message)` (lines 67-84): if the canonical file
`<type>.log` exists and its size exceeds `MAX_LOG_SIZE`, rename it to
`<type>.<Date.now()>.log`; then append `message + '\n'` to the canonical
name.  Sizes are UTF-8 byte counts (`fs.statSync(file).size`).  `now` is
the `Date.now()` value used for the rotated name. -/
def writeToFile (inj : Inj) (type message : String) (now : Nat) (s : LogState) : LogState :=
  match fsLookup s.fs (type ++ ".log") with
  | Option.some content =>
    match inj.statFail with
    | Option.some m => { s with stderr := s.stderr ++ [failMsg m] }
    | Option.none =>
      if MAX_LOG_SIZE < content.utf8ByteSize then
        match inj.renameFail with
        | Option.some m => { s with stderr := s.stderr ++ [failMsg m] }
        | Option.none =>
          appendStep inj (type ++ ".log") message
            { s with
              fs := fsSet (fsRemove s.fs (type ++ ".log"))
                (type ++ "." ++ toString now ++ ".log") content }
      else appendStep inj (type ++ ".log") message s
  | Option.none => appendStep inj (type ++ ".log") message s

/-- Environment of one `record` call: the production flag
(`config.app.production`), the rendered timestamp (`this.timestamp()`),
the epoch-millisecond clock (`Date.now()`), and the failure injections
for the two `writeToFile` calls. -/
structure Env where
  prod : Bool
  ts : String
  now : Nat
  inj1 : Inj
  inj2 : Inj

namespace Logger

/-- The message-construction part of `record` (lines 174-207): returns
the console message and the file message.  Note that when the severity
is `error` and the payload carries a (truthy) `name`, both messages are
rebuilt from the header (lines 188-196), discarding a previously
appended context. -/
def buildMessages (ts : String) (type : Severity) (layer : String)
    (err : Payload) (options : Options) : String × String :=
  let errorInfo := extractErrorInfo err
  let rawMessage := errorInfo.message
  let header := ts ++ " | " ++ jsToUpper type.key ++ " | " ++ jsToUpper layer
  let headerBold := bold header
  let consoleMessage := headerBold ++ " | " ++ rawMessage
  let fileMessage := header ++ " | " ++ rawMessage
  let cf :=
    match options.context with
    | Option.some ctx =>
      if ctx.truthy then
        let contextStr := formatValue ctx
        (consoleMessage ++ "\n" ++ dim "Context:" ++ " " ++ contextStr,
         fileMessage ++ "\nContext: " ++ contextStr)
      else (consoleMessage, fileMessage)
    | Option.none => (consoleMessage, fileMessage)
  let cf :=
    match errorInfo.name with
    | Option.some nm =>
      if type = Severity.error ∧ nm ≠ "" then
        let errorType := "[" ++ nm ++ "]"
        let cm := headerBold ++ " " ++ colorize Severity.error errorType ++ " | " ++ rawMessage
        let fm := header ++ " " ++ errorType ++ " | " ++ rawMessage
        match errorInfo.code with
        | Option.some cd =>
          if cd ≠ "" then
            (cm ++ "\n" ++ dim "Code:" ++ " " ++ cd, fm ++ "\nCode: " ++ cd)
          else (cm, fm)
        | Option.none => (cm, fm)
      else cf
    | Option.none => cf
  match errorInfo.stack with
  | Option.some stx =>
    if stx ≠ "" ∧ (type = Severity.error ∨ options.trace) then
      let stackForConsole := formatStack stx true
      let stackForFile := formatStack stx false
      if stackForConsole ≠ "" then
        (cf.1 ++ colorize type stackForConsole, cf.2 ++ stackForFile)
      else cf
    else cf
  | Option.none => cf

/-- `record(type, layer, err, options)` (lines 171-222): bump the
severity's counter, build the two messages, write the file message to
the severity's file and to the `all` file, echo to the console unless in
production mode with severity `error` or `warning`, and finally return
the value to be re-raised (development mode, severity `error`, no
`noThrow` option). -/
def record (env : Env) (type : Severity) (layer : String) (err : Payload)
    (options : Options) (s : LogState) : LogState × Option Thrown :=
  let s := { s with stats := s.stats.bump type }
  let cf := buildMessages env.ts type layer err options
  let s := writeToFile env.inj1 type.key cf.2 env.now s
  let s := writeToFile env.inj2 "all" cf.2 env.now s
  let s :=
    if env.prod = true ∧ (type = Severity.error ∨ type = Severity.warning) then s
    else { s with console := s.console ++ [ConsoleOut.line (colorize type cf.1)] }
  let thrown :=
    if env.prod = false ∧ type = Severity.error ∧ options.noThrow = false
    then Option.some (thrownOf err)
    else Option.none
  (s, thrown)

/-- `info(layer, message, options)` (line 224). -/
def info (env : Env) (layer : String) (message : Payload) (options : Options)
    (s : LogState) : LogState × Option Thrown :=
  record env Severity.info layer message options s

/-- `debug(layer, message, options)` (line 228). -/
def debug (env : Env) (layer : String) (message : Payload) (options : Options)
    (s : LogState) : LogState × Option Thrown :=
  record env Severity.debug layer message options s

/-- `log(layer, message, options)` (line 232). -/
def log (env : Env) (layer : String) (message : Payload) (options : Options)
    (s : LogState) : LogState × Option Thrown :=
  record env Severity.log layer message options s

/-- `warning(layer, message, options)` (line 236). -/
def warning (env : Env) (layer : String) (message : Payload) (options : Options)
    (s : LogState) : LogState × Option Thrown :=
  record env Severity.warning layer message options s

/-- `error(layer, err, options)` (line 240): forces `trace: true`. -/
def error (env : Env) (layer : String) (err : Payload) (options : Options)
    (s : LogState) : LogState × Option Thrown :=
  record env Severity.error layer err { options with trace := true } s

/-- `set(err, layer, options)` (line 244): `error` with swapped
arguments. -/
def set (env : Env) (err : Payload) (layer : String) (options : Options)
    (s : LogState) : LogState × Option Thrown :=
  error env layer err options s

/-- `all(layer, message, options)` (line 248). -/
def all (env : Env) (layer : String) (message : Payload) (options : Options)
    (s : LogState) : LogState × Option Thrown :=
  record env Severity.all layer message options s

/-- `group(layer, title, callback)` (lines 257-264).  The `try/finally`
is modelled explicitly: the end marker is recorded whether or not the
callback throws, and the callback's exception (or, were it possible, one
from the end marker itself) propagates afterwards.  `env1` is the
environment of the start-marker call, `env2` that of the end-marker
call. -/
def group (env1 env2 : Env) (layer title : String)
    (callback : LogState → LogState × Option Thrown) (s : LogState) :
    LogState × Option Thrown :=
  let r1 := info env1 layer (Payload.str ("──── " ++ title ++ " ────")) {} s
  match r1.2 with
  | Option.some e => (r1.1, Option.some e)
  | Option.none =>
    let r2 := callback r1.1
    let r3 := info env2 layer (Payload.str ("──── End " ++ title ++ " ────")) {} r2.1
    (r3.1,
      match r3.2 with
      | Option.some e => Option.some e
      | Option.none => r2.2)

/-- The `data` argument of `table`: an array of rows (each row abstracted
to its serialized form) or a non-array value. -/
inductive TableData
  | arr (rows : List String)
  | notArray
deriving DecidableEq, Repr

/-- `table(layer, data)` (lines 266-271).  `serialize` stands for
`JSON.stringify(data, null, 2)`, an external function of the whole
array. -/
def table (env : Env) (serialize : List String → String) (layer : String)
    (data : TableData) (s : LogState) : LogState :=
  match data with
  | TableData.arr rows =>
    if 0 < rows.length then
      let s := { s with console := s.console ++ [ConsoleOut.table rows] }
      writeToFile env.inj1 "log"
        (env.ts ++ " | TABLE | " ++ jsToUpper layer ++ "\n" ++ serialize rows)
        env.now s
    else s
  | TableData.notArray => s

/-- `stats()` (lines 273-275): a snapshot of the counters. -/
def stats (s : LogState) : Stats := s.stats

/-- `clearStats()` (lines 277-281). -/
def clearStats (s : LogState) : LogState := { s with stats := Stats.zero }

end Logger

/-!
### Call sequences and concrete fixtures

`EntryCall` describes one invocation of a public leveled entry point
(`info`, `debug`, `log`, `warning`, `error` or `all`); `runCalls` plays a
sequence of such calls against a state, threading the state through
(exceptions re-raised by `error` do not undo the already-performed state
update, since the `throw` is the last statement of `record`).
-/

/-- One call to a leveled public entry point. -/
inductive EntryCall
  | info (layer : String) (message : Payload) (options : Options)
  | debug (layer : String) (message : Payload) (options : Options)
  | log (layer : String) (message : Payload) (options : Options)
  | warning (layer : String) (message : Payload) (options : Options)
  | error (layer : String) (err : Payload) (options : Options)
  | all (layer : String) (message : Payload) (options : Options)

/-- The primary severity an entry call records with. -/
def EntryCall.severity : EntryCall → Severity
  | .info _ _ _ => Severity.info
  | .debug _ _ _ => Severity.debug
  | .log _ _ _ => Severity.log
  | .warning _ _ _ => Severity.warning
  | .error _ _ _ => Severity.error
  | .all _ _ _ => Severity.all

/-- Dispatch one entry call. -/
def runCall (env : Env) (c : EntryCall) (s : LogState) : LogState :=
  match c with
  | .info layer m o => (Logger.info env layer m o s).1
  | .debug layer m o => (Logger.debug env layer m o s).1
  | .log layer m o => (Logger.log env layer m o s).1
  | .warning layer m o => (Logger.warning env layer m o s).1
  | .error layer e o => (Logger.error env layer e o s).1
  | .all layer m o => (Logger.all env layer m o s).1

/-- Play a sequence of entry calls, each with its own environment. -/
def runCalls : List (Env × EntryCall) → LogState → LogState
  | [], s => s
  | (env, c) :: rest, s => runCalls rest (runCall env c s)

/-- The empty logger state (no files, no output, zero counters). -/
def stEmpty : LogState := ⟨Stats.zero, [], [], [], []⟩

/-- A development-mode environment with fixed timestamp and clock and no
injected `fs` failures. -/
def envDev : Env := ⟨false, "TS", 0, Inj.ok, Inj.ok⟩

/-- A string of `n` ASCII characters (hence of `n` UTF-8 bytes). -/
def charRep (n : Nat) : String := String.mk (List.replicate n 'a')

/-- Content of exactly `MAX_LOG_SIZE` bytes. -/
def bigContent : String := charRep MAX_LOG_SIZE

/-- Content of `MAX_LOG_SIZE + 1` bytes (strictly over the limit). -/
def hugeContent : String := charRep (MAX_LOG_SIZE + 1)

/-- A state whose `info.log` is exactly at the size limit. -/
def stBig : LogState := ⟨Stats.zero, [("info.log", bigContent)], [], [], []⟩

/-- A state whose `info.log` is strictly over the size limit. -/
def stHuge : LogState := ⟨Stats.zero, [("info.log", hugeContent)], [], [], []⟩

/-- The `Error` payload of the context-loss counterexample: a named
error without stack or code. -/
def c3err : JsError := ⟨"Error", "boom", Option.none, Option.none⟩

/-- Options supplying a (truthy) object context whose inspection renders
as `CTXDATA`. -/
def c3opts : Options := ⟨Option.some (CtxVal.obj (Option.some "CTXDATA")), false, true⟩

/-- A state with one small existing `info.log` (fixture for failure
injections). -/
def stOne : LogState := ⟨Stats.zero, [("info.log", "old")], [], [], []⟩

/-- A fixed external serializer standing in for `JSON.stringify`. -/
def serializeJ : List String → String := fun _ => "J"

/-!
### Helper lemmas: the file-system association list and byte sizes
-/

theorem fsLookup_set_self (fs : Fs) (n c : String) :
    fsLookup (fsSet fs n c) n = Option.some c := by
  induction fs with
  | nil => simp [fsSet, fsLookup, List.find?]
  | cons p rest ih =>
    obtain ⟨k, v⟩ := p
    by_cases h : k = n
    · simp [fsSet, h, fsLookup, List.find?]
    · simp only [fsSet, if_neg h]
      simpa [fsLookup, List.find?, h] using ih

theorem fsLookup_set_ne (fs : Fs) (n c m : String) (h : m ≠ n) :
    fsLookup (fsSet fs n c) m = fsLookup fs m := by
  induction fs with
  | nil => simp [fsSet, fsLookup, List.find?, Ne.symm h]
  | cons p rest ih =>
    obtain ⟨k, v⟩ := p
    by_cases hk : k = n
    · subst hk
      simp [fsSet, fsLookup, List.find?, Ne.symm h]
    · simp only [fsSet, if_neg hk]
      by_cases hm : k = m
      · simp [fsLookup, List.find?, hm]
      · simpa [fsLookup, List.find?, hm] using ih

theorem fsLookup_remove_self (fs : Fs) (n : String) :
    fsLookup (fsRemove fs n) n = Option.none := by
  induction fs with
  | nil => simp [fsRemove, fsLookup, List.find?]
  | cons p rest ih =>
    obtain ⟨k, v⟩ := p
    by_cases h : k = n
    · subst h
      simpa [fsRemove, List.filter] using ih
    · simp only [fsRemove, List.filter_cons]
      simpa [fsLookup, List.find?, h] using ih

theorem fsLookup_remove_ne (fs : Fs) (n m : String) (h : m ≠ n) :
    fsLookup (fsRemove fs n) m = fsLookup fs m := by
  induction fs with
  | nil => simp [fsRemove, fsLookup, List.find?]
  | cons p rest ih =>
    obtain ⟨k, v⟩ := p
    by_cases hk : k = n
    · subst hk
      simp only [fsRemove, List.filter_cons] at ih ⊢
      simpa [fsLookup, List.find?, Ne.symm h] using ih
    · simp only [fsRemove, List.filter_cons] at ih ⊢
      by_cases hm : k = m
      · subst hm
        simp [fsLookup, List.find?, h]
      · simpa [fsLookup, List.find?, hm, hk] using ih

theorem utf8Go_append (l1 l2 : List Char) :
    String.utf8ByteSize.go (l1 ++ l2)
      = String.utf8ByteSize.go l1 + String.utf8ByteSize.go l2 := by
  induction l1 with
  | nil => simp [String.utf8ByteSize.go]
  | cons c cs ih =>
    have h1 : String.utf8ByteSize.go (c :: (cs ++ l2))
        = String.utf8ByteSize.go (cs ++ l2) + c.utf8Size := rfl
    have h2 : String.utf8ByteSize.go (c :: cs)
        = String.utf8ByteSize.go cs + c.utf8Size := rfl
    rw [List.cons_append, h1, h2, ih]
    omega

theorem utf8_mk (l : List Char) :
    (String.mk l).utf8ByteSize = String.utf8ByteSize.go l := rfl

theorem charRep_utf8 (n : Nat) : (charRep n).utf8ByteSize = n := by
  show String.utf8ByteSize.go (List.replicate n 'a') = n
  induction n with
  | zero => simp [String.utf8ByteSize.go]
  | succ k ih =>
    simp only [List.replicate_succ, String.utf8ByteSize.go, ih]
    rfl

theorem string_append_data (s t : String) : (s ++ t).data = s.data ++ t.data := rfl

theorem utf8_append (s t : String) :
    (s ++ t).utf8ByteSize = s.utf8ByteSize + t.utf8ByteSize := by
  cases s with
  | mk l1 =>
    cases t with
    | mk l2 =>
      show String.utf8ByteSize.go (l1 ++ l2) = _
      exact utf8Go_append l1 l2

theorem rotated_ne_canonical (t : String) (n : Nat) :
    t ++ "." ++ toString n ++ ".log" ≠ t ++ ".log" := by
  intro h
  have hl := congrArg String.length h
  have h1 : ".".length = 1 := rfl
  have h4 : ".log".length = 4 := rfl
  simp only [String.length_append, h1, h4] at hl
  omega

/-!
### Helper lemmas: `writeToFile` and `record`
-/

theorem appendStep_stats (inj : Inj) (f m : String) (s : LogState) :
    (appendStep inj f m s).stats = s.stats := by
  unfold appendStep
  cases inj.appendFail <;> rfl

theorem appendStep_console (inj : Inj) (f m : String) (s : LogState) :
    (appendStep inj f m s).console = s.console := by
  unfold appendStep
  cases inj.appendFail <;> rfl

theorem writeToFile_stats (inj : Inj) (t m : String) (now : Nat) (s : LogState) :
    (writeToFile inj t m now s).stats = s.stats := by
  unfold writeToFile
  cases fsLookup s.fs (t ++ ".log") with
  | none => exact appendStep_stats ..
  | some content =>
    cases inj.statFail with
    | some m' => rfl
    | none =>
      by_cases hsz : MAX_LOG_SIZE < content.utf8ByteSize
      · simp only [if_pos hsz]
        cases inj.renameFail with
        | some m' => rfl
        | none => exact appendStep_stats ..
      · simp only [if_neg hsz]
        exact appendStep_stats ..

theorem writeToFile_console (inj : Inj) (t m : String) (now : Nat) (s : LogState) :
    (writeToFile inj t m now s).console = s.console := by
  unfold writeToFile
  cases fsLookup s.fs (t ++ ".log") with
  | none => exact appendStep_console ..
  | some content =>
    cases inj.statFail with
    | some m' => rfl
    | none =>
      by_cases hsz : MAX_LOG_SIZE < content.utf8ByteSize
      · simp only [if_pos hsz]
        cases inj.renameFail with
        | some m' => rfl
        | none => exact appendStep_console ..
      · simp only [if_neg hsz]
        exact appendStep_console ..

theorem writeToFile_journal_ok (t m : String) (now : Nat) (s : LogState) :
    (writeToFile Inj.ok t m now s).journal = s.journal ++ [(t ++ ".log", m)] := by
  unfold writeToFile
  cases fsLookup s.fs (t ++ ".log") with
  | none => rfl
  | some content =>
    show (if MAX_LOG_SIZE < content.utf8ByteSize then _ else _ : LogState).journal = _
    by_cases hsz : MAX_LOG_SIZE < content.utf8ByteSize
    · simp only [if_pos hsz]
      rfl
    · simp only [if_neg hsz]
      rfl

theorem writeToFile_stderr_ok (t m : String) (now : Nat) (s : LogState) :
    (writeToFile Inj.ok t m now s).stderr = s.stderr := by
  unfold writeToFile
  cases fsLookup s.fs (t ++ ".log") with
  | none => rfl
  | some content =>
    show (if MAX_LOG_SIZE < content.utf8ByteSize then _ else _ : LogState).stderr = _
    by_cases hsz : MAX_LOG_SIZE < content.utf8ByteSize
    · simp only [if_pos hsz]
      rfl
    · simp only [if_neg hsz]
      rfl

theorem writeToFile_fs_ok_small (t m : String) (now : Nat) (s : LogState)
    (h : ((fsLookup s.fs (t ++ ".log")).getD "").utf8ByteSize ≤ MAX_LOG_SIZE) :
    (writeToFile Inj.ok t m now s).fs
      = fsSet s.fs (t ++ ".log")
          (((fsLookup s.fs (t ++ ".log")).getD "") ++ m ++ "\n") := by
  unfold writeToFile
  cases hl : fsLookup s.fs (t ++ ".log") with
  | none => simp [appendStep, Inj.ok, hl]
  | some content =>
    rw [hl] at h
    simp only [Option.getD_some] at h
    simp only [Inj.ok, if_neg (Nat.not_lt.mpr h)]
    simp [appendStep, Inj.ok, hl]

theorem writeToFile_appendFail (mf t m : String) (now : Nat) (s : LogState) :
    ((writeToFile ⟨Option.none, Option.none, Option.some mf⟩ t m now s).journal
        = s.journal
      ∧ (writeToFile ⟨Option.none, Option.none, Option.some mf⟩ t m now s).stderr
        = s.stderr ++ [failMsg mf]) := by
  unfold writeToFile
  cases fsLookup s.fs (t ++ ".log") with
  | none => exact ⟨rfl, rfl⟩
  | some content =>
    by_cases hsz : MAX_LOG_SIZE < content.utf8ByteSize
    · simp only [if_pos hsz]
      exact ⟨rfl, rfl⟩
    · simp only [if_neg hsz]
      exact ⟨rfl, rfl⟩

theorem writeToFile_statFail (mf t m : String) (i2 i3 : Option String) (now : Nat)
    (s : LogState) (c : String) (h : fsLookup s.fs (t ++ ".log") = Option.some c) :
    writeToFile ⟨Option.some mf, i2, i3⟩ t m now s
      = { s with stderr := s.stderr ++ [failMsg mf] } := by
  unfold writeToFile
  rw [h]

theorem writeToFile_renameFail (mf t m : String) (i3 : Option String) (now : Nat)
    (s : LogState) (c : String) (h : fsLookup s.fs (t ++ ".log") = Option.some c)
    (hbig : MAX_LOG_SIZE < c.utf8ByteSize) :
    writeToFile ⟨Option.none, Option.some mf, i3⟩ t m now s
      = { s with stderr := s.stderr ++ [failMsg mf] } := by
  unfold writeToFile
  rw [h]
  simp only [if_pos hbig]

theorem record_stats (env : Env) (type : Severity) (layer : String) (err : Payload)
    (options : Options) (s : LogState) :
    (Logger.record env type layer err options s).1.stats = s.stats.bump type := by
  unfold Logger.record
  by_cases h : env.prod = true ∧ (type = Severity.error ∨ type = Severity.warning)
  · simp only [if_pos h]
    rw [writeToFile_stats, writeToFile_stats]
  · simp only [if_neg h]
    show (writeToFile _ _ _ _ _).stats = _
    rw [writeToFile_stats, writeToFile_stats]

theorem record_thrown (env : Env) (type : Severity) (layer : String) (err : Payload)
    (options : Options) (s : LogState) :
    (Logger.record env type layer err options s).2
      = if env.prod = false ∧ type = Severity.error ∧ options.noThrow = false
        then Option.some (thrownOf err) else Option.none := rfl

theorem record_console (env : Env) (type : Severity) (layer : String) (err : Payload)
    (options : Options) (s : LogState) :
    (Logger.record env type layer err options s).1.console
      = s.console
        ++ (if env.prod = true ∧ (type = Severity.error ∨ type = Severity.warning)
            then []
            else [ConsoleOut.line
              (colorize type (Logger.buildMessages env.ts type layer err options).1)]) := by
  unfold Logger.record
  by_cases h : env.prod = true ∧ (type = Severity.error ∨ type = Severity.warning)
  · simp only [if_pos h]
    rw [writeToFile_console, writeToFile_console]
    simp
  · simp only [if_neg h]
    show (writeToFile _ _ _ _ _).console ++ _ = _
    rw [writeToFile_console, writeToFile_console]

theorem record_journal_ok (prod : Bool) (ts : String) (now : Nat) (type : Severity)
    (layer : String) (err : Payload) (options : Options) (s : LogState) :
    (Logger.record ⟨prod, ts, now, Inj.ok, Inj.ok⟩ type layer err options s).1.journal
      = s.journal
        ++ [(type.key ++ ".log", (Logger.buildMessages ts type layer err options).2),
            ("all" ++ ".log", (Logger.buildMessages ts type layer err options).2)] := by
  unfold Logger.record
  by_cases h : prod = true ∧ (type = Severity.error ∨ type = Severity.warning)
  · simp only [if_pos h]
    rw [writeToFile_journal_ok, writeToFile_journal_ok]
    simp
  · simp only [if_neg h]
    show (writeToFile _ _ _ _ _).journal = _
    rw [writeToFile_journal_ok, writeToFile_journal_ok]
    simp

theorem record_stderr_ok (prod : Bool) (ts : String) (now : Nat) (type : Severity)
    (layer : String) (err : Payload) (options : Options) (s : LogState) :
    (Logger.record ⟨prod, ts, now, Inj.ok, Inj.ok⟩ type layer err options s).1.stderr
      = s.stderr := by
  unfold Logger.record
  by_cases h : prod = true ∧ (type = Severity.error ∨ type = Severity.warning)
  · simp only [if_pos h]
    rw [writeToFile_stderr_ok, writeToFile_stderr_ok]
  · simp only [if_neg h]
    show (writeToFile _ _ _ _ _).stderr = _
    rw [writeToFile_stderr_ok, writeToFile_stderr_ok]

theorem record_fs (env : Env) (type : Severity) (layer : String) (err : Payload)
    (options : Options) (s : LogState) :
    (Logger.record env type layer err options s).1.fs
      = (writeToFile env.inj2 "all"
          (Logger.buildMessages env.ts type layer err options).2 env.now
          (writeToFile env.inj1 type.key
            (Logger.buildMessages env.ts type layer err options).2 env.now
            { s with stats := s.stats.bump type })).fs := by
  unfold Logger.record
  by_cases h : env.prod = true ∧ (type = Severity.error ∨ type = Severity.warning)
  · simp only [if_pos h]
  · simp only [if_neg h]

theorem record_journal (env : Env) (type : Severity) (layer : String) (err : Payload)
    (options : Options) (s : LogState) :
    (Logger.record env type layer err options s).1.journal
      = (writeToFile env.inj2 "all"
          (Logger.buildMessages env.ts type layer err options).2 env.now
          (writeToFile env.inj1 type.key
            (Logger.buildMessages env.ts type layer err options).2 env.now
            { s with stats := s.stats.bump type })).journal := by
  unfold Logger.record
  by_cases h : env.prod = true ∧ (type = Severity.error ∨ type = Severity.warning)
  · simp only [if_pos h]
  · simp only [if_neg h]

theorem record_stderr (env : Env) (type : Severity) (layer : String) (err : Payload)
    (options : Options) (s : LogState) :
    (Logger.record env type layer err options s).1.stderr
      = (writeToFile env.inj2 "all"
          (Logger.buildMessages env.ts type layer err options).2 env.now
          (writeToFile env.inj1 type.key
            (Logger.buildMessages env.ts type layer err options).2 env.now
            { s with stats := s.stats.bump type })).stderr := by
  unfold Logger.record
  by_cases h : env.prod = true ∧ (type = Severity.error ∨ type = Severity.warning)
  · simp only [if_pos h]
  · simp only [if_neg h]

theorem stats_get_bump (st : Stats) (t sev : Severity) :
    (st.bump t).get sev = st.get sev + if t = sev then 1 else 0 := by
  cases t <;> cases sev <;> simp [Stats.bump, Stats.get]

theorem runCall_stats (env : Env) (c : EntryCall) (s : LogState) :
    (runCall env c s).stats = s.stats.bump c.severity := by
  cases c <;>
    simp [runCall, Logger.info, Logger.debug, Logger.log, Logger.warning,
      Logger.error, Logger.all, EntryCall.severity, record_stats]

theorem runCalls_stats_get (cs : List (Env × EntryCall)) (s : LogState) (sev : Severity) :
    ((runCalls cs s).stats).get sev
      = (s.stats).get sev + cs.countP (fun c => c.2.severity = sev) := by
  induction cs generalizing s with
  | nil => simp [runCalls]
  | cons p rest ih =>
    obtain ⟨env, c⟩ := p
    simp only [runCalls, List.countP_cons]
    rw [ih, runCall_stats, stats_get_bump]
    by_cases h : c.severity = sev
    · simp only [if_pos h, h]
      simp
      omega
    · simp only [if_neg h]
      simp [h]

/-!
### Helper lemmas: the backtracking matcher
-/

theorem firstSome_eq_some {f : α → Option β} {l : List α} {b : β}
    (h : firstSome f l = Option.some b) : ∃ a ∈ l, f a = Option.some b := by
  induction l with
  | nil => simp [firstSome] at h
  | cons a rest ih =>
    simp only [firstSome] at h
    cases hf : f a with
    | some b' =>
      rw [hf] at h
      exact ⟨a, List.mem_cons_self a rest, by simpa using h ▸ hf⟩
    | none =>
      rw [hf] at h
      obtain ⟨a', ha', hfa'⟩ := ih h
      exact ⟨a', List.mem_cons_of_mem a ha', hfa'⟩

theorem mem_lengthsFor {lz : Bool} {r n : Nat} (h : n ∈ lengthsFor lz r) :
    1 ≤ n ∧ n ≤ r := by
  cases lz with
  | true =>
    rw [show lengthsFor true r = (List.range r).map (fun k => k + 1) from rfl] at h
    obtain ⟨k, hk, rfl⟩ := List.mem_map.mp h
    have := List.mem_range.mp hk
    omega
  | false =>
    rw [show lengthsFor false r = ((List.range r).map (fun k => k + 1)).reverse from rfl] at h
    rw [List.mem_reverse] at h
    obtain ⟨k, hk, rfl⟩ := List.mem_map.mp h
    have := List.mem_range.mp hk
    omega

theorem string_mk_eq_empty_iff (l : List Char) : (String.mk l = "") ↔ l = [] := by
  constructor
  · intro h
    have hd : (String.mk l).data = ("" : String).data := congrArg String.data h
    simpa using hd
  · intro h
    subst h
    rfl

theorem matchToks_caps {toks : List Tok} {cs : List Char} {caps : List (List Char)}
    (h : matchToks toks cs = Option.some caps) :
    caps.length = countCaps toks ∧ ∀ c ∈ caps, c ≠ [] := by
  induction toks generalizing cs caps with
  | nil =>
    simp only [matchToks] at h
    cases h
    simp [countCaps]
  | cons t ts ih =>
    cases t with
    | lit c =>
      cases cs with
      | nil => simp [matchToks] at h
      | cons x xs =>
        simp only [matchToks] at h
        by_cases hx : x = c
        · rw [if_pos hx] at h
          obtain ⟨hlen, hmem⟩ := ih h
          refine ⟨?_, hmem⟩
          simpa [countCaps, List.countP_cons] using hlen
        · rw [if_neg hx] at h
          cases h
    | rep p lz cap =>
      simp only [matchToks] at h
      obtain ⟨n, hn, hfn⟩ := firstSome_eq_some h
      obtain ⟨hn1, hn2⟩ := mem_lengthsFor hn
      cases hm : matchToks ts (cs.drop n) with
      | none => rw [hm] at hfn; cases hfn
      | some caps' =>
        rw [hm] at hfn
        simp only [Option.map_some'] at hfn
        obtain ⟨hlen, hmem⟩ := ih hm
        cases cap with
        | false =>
          cases hfn
          refine ⟨?_, hmem⟩
          simpa [countCaps, List.countP_cons] using hlen
        | true =>
          cases hfn
          have hr : (cs.takeWhile p).length ≤ cs.length :=
            List.Sublist.length_le (List.takeWhile_sublist p)
          have hcs : cs ≠ [] := by
            intro hnil
            subst hnil
            simp [List.takeWhile] at hn2
            omega
          have htake : cs.take n ≠ [] := by
            rw [Ne, List.take_eq_nil_iff]
            push_neg
            exact ⟨by omega, hcs⟩
          constructor
          · simpa [countCaps, List.countP_cons] using hlen
          · intro c hc
            rcases List.mem_cons.mp hc with hceq | hcm
            · subst hceq
              exact htake
            · exact hmem c hcm

theorem searchFrom_caps {toks : List Tok} {cs : List Char} {caps : List (List Char)}
    (h : searchFrom toks cs = Option.some caps) :
    caps.length = countCaps toks ∧ ∀ c ∈ caps, c ≠ [] := by
  induction cs with
  | nil =>
    simp only [searchFrom] at h
    exact matchToks_caps h
  | cons x xs ih =>
    simp only [searchFrom] at h
    cases hm : matchToks toks (x :: xs) with
    | some caps' =>
      rw [hm] at h
      cases h
      exact matchToks_caps hm
    | none =>
      rw [hm] at h
      exact ih h

theorem countCaps_re1 : countCaps re1 = 4 := rfl

theorem countCaps_re2 : countCaps re2 = 3 := rfl

theorem classifyLine_of_not_match {l : List Char} (h : matchesEither l = false) :
    classifyLine l = StackItem.raw (String.mk (trimCs l)) := by
  unfold matchesEither at h
  rw [Bool.or_eq_false_iff] at h
  obtain ⟨h1, h2⟩ := h
  unfold classifyLine
  cases e1 : searchFrom re1 l with
  | some c =>
    rw [e1] at h1
    simp at h1
  | none =>
    cases e2 : searchFrom re2 l with
    | some c =>
      rw [e2] at h2
      simp at h2
    | none => rfl

theorem classifyLine_isFrame (l : List Char) :
    (classifyLine l).isFrame = matchesEither l := by
  unfold classifyLine matchesEither
  cases e1 : searchFrom re1 l with
  | some caps =>
    obtain ⟨hlen, hne⟩ := searchFrom_caps e1
    rw [countCaps_re1] at hlen
    rcases caps with _ | ⟨a, _ | ⟨b, _ | ⟨c, _ | ⟨d, _ | ⟨e, rest⟩⟩⟩⟩⟩ <;>
      simp_all [StackItem.isFrame]
  | none =>
    cases e2 : searchFrom re2 l with
    | some caps =>
      obtain ⟨hlen, hne⟩ := searchFrom_caps e2
      rw [countCaps_re2] at hlen
      rcases caps with _ | ⟨a, _ | ⟨b, _ | ⟨c, _ | ⟨d, rest⟩⟩⟩⟩ <;>
        simp_all [StackItem.isFrame]
    | none => simp [StackItem.isFrame]

theorem keep_classify_of_match {l : List Char} (h : matchesEither l = true) :
    keepItem (classifyLine l) = true := by
  unfold classifyLine
  cases e1 : searchFrom re1 l with
  | some caps =>
    obtain ⟨hlen, hne⟩ := searchFrom_caps e1
    rw [countCaps_re1] at hlen
    rcases caps with _ | ⟨a, _ | ⟨b, _ | ⟨c, _ | ⟨d, _ | ⟨e, rest⟩⟩⟩⟩⟩ <;>
      simp_all [keepItem, string_mk_eq_empty_iff]
  | none =>
    cases e2 : searchFrom re2 l with
    | some caps =>
      obtain ⟨hlen, hne⟩ := searchFrom_caps e2
      rw [countCaps_re2] at hlen
      rcases caps with _ | ⟨a, _ | ⟨b, _ | ⟨c, _ | ⟨d, rest⟩⟩⟩⟩ <;>
        simp_all [keepItem, string_mk_eq_empty_iff]
    | none =>
      unfold matchesEither at h
      rw [e1, e2] at h
      simp at h

theorem keep_raw (t : List Char) :
    keepItem (StackItem.raw (String.mk t)) = !t.isEmpty := by
  cases t with
  | nil => rfl
  | cons c cs => simp [keepItem, string_mk_eq_empty_iff]

theorem frame_keep_eq (l : List Char) :
    ((classifyLine l).isFrame && keepItem (classifyLine l)) = matchesEither l := by
  cases h : matchesEither l
  · rw [classifyLine_of_not_match h]
    simp [StackItem.isFrame]
  · have h1 := classifyLine_isFrame l
    rw [h] at h1
    rw [h1, keep_classify_of_match h]
    rfl

theorem raw_keep_eq (l : List Char) :
    ((classifyLine l).isRaw && keepItem (classifyLine l))
      = (!matchesEither l && !(trimCs l).isEmpty) := by
  cases h : matchesEither l
  · rw [classifyLine_of_not_match h]
    simp [StackItem.isRaw, keep_raw]
  · have h1 := classifyLine_isFrame l
    rw [h] at h1
    cases hcl : classifyLine l <;> simp_all [StackItem.isFrame, StackItem.isRaw]

/-!
## Claims
-/

/-- C1 (counterexample): the claim predicts that after one `info` call
from a cleared state, `stats().all = 1` (the number of calls).  In the
code, `record` increments only the recorded severity's counter (line
172), so after the single `info` call the `info` counter is `1` but the
`all` counter is still `0`. -/
theorem C1_counterexample :
    (Logger.stats (runCalls [(envDev, EntryCall.info "x" (Payload.str "m") {})]
        (Logger.clearStats stEmpty))).info = 1
    ∧ (Logger.stats (runCalls [(envDev, EntryCall.info "x" (Payload.str "m") {})]
        (Logger.clearStats stEmpty))).all = 0 := by
  exact ⟨rfl, rfl⟩

/-- C1 (amended): for every sequence of entry-point calls (`info`,
`debug`, `log`, `warning`, `error` or `all`), each severity's counter —
including `all` — grows by exactly the number of calls whose primary
severity it is; the `all` counter counts only explicit `all()` calls,
not every call. -/
theorem C1_stats_count (cs : List (Env × EntryCall)) (s : LogState) (sev : Severity) :
    (Logger.stats (runCalls cs s)).get sev
      = (Logger.stats s).get sev + cs.countP (fun c => c.2.severity = sev) :=
  runCalls_stats_get cs s sev

/-- C2 (counterexample): with `info.log` at exactly `MAX_LOG_SIZE` bytes,
a write does NOT rotate (the check at line 73 is `size > MAX_LOG_SIZE`,
on the size before the append), and the canonical file afterwards
exceeds the maximum — contradicting "the file never exceeds the
configured maximum" and "whenever a write would exceed the maximum, the
existing file is first renamed". -/
theorem C2_counterexample :
    fsLookup (writeToFile Inj.ok "info" "x" 0 stBig).fs "info.log"
        = Option.some (bigContent ++ "x" ++ "\n")
  ∧ MAX_LOG_SIZE < (bigContent ++ "x" ++ "\n").utf8ByteSize
  ∧ (writeToFile Inj.ok "info" "x" 0 stBig).journal = [("info" ++ ".log", "x")] := by
  have hlook : fsLookup stBig.fs ("info" ++ ".log") = Option.some bigContent := by
    simp [stBig, fsLookup, List.find?]
  have hfs : (writeToFile Inj.ok "info" "x" 0 stBig).fs
      = fsSet stBig.fs ("info" ++ ".log")
          (((fsLookup stBig.fs ("info" ++ ".log")).getD "") ++ "x" ++ "\n") := by
    apply writeToFile_fs_ok_small
    rw [hlook]
    simp [bigContent, charRep_utf8]
  refine ⟨?_, ?_, ?_⟩
  · rw [hfs, hlook]
    simp only [Option.getD_some]
    rw [show ("info" ++ ".log" : String) = "info.log" from rfl]
    exact fsLookup_set_self ..
  · rw [utf8_append, utf8_append]
    have hx : ("x" : String).utf8ByteSize = 1 := rfl
    have hn : ("\n" : String).utf8ByteSize = 1 := rfl
    rw [hx, hn, show bigContent.utf8ByteSize = MAX_LOG_SIZE from charRep_utf8 _]
    omega
  · rw [writeToFile_journal_ok]
    simp [stBig]

/-- C2 (amended): rotation happens on the first write that finds the
canonical file already strictly over `MAX_LOG_SIZE`: the oversized file
is renamed to `<severity>.<epochMillis>.log` and the new content is
appended to a fresh file of the canonical name (so the canonical file
may exceed the maximum until the next write, by the size of the content
appended after the last pre-append size check). -/
theorem C2_rotation (sev msg : String) (now : Nat) (s : LogState) (content : String)
    (hlook : fsLookup s.fs (sev ++ ".log") = Option.some content)
    (hbig : MAX_LOG_SIZE < content.utf8ByteSize) :
    fsLookup (writeToFile Inj.ok sev msg now s).fs (sev ++ ".log")
        = Option.some (msg ++ "\n")
  ∧ fsLookup (writeToFile Inj.ok sev msg now s).fs
        (sev ++ "." ++ toString now ++ ".log")
        = Option.some content := by
  have hne := rotated_ne_canonical sev now
  unfold writeToFile
  rw [hlook]
  simp only [Inj.ok, if_pos hbig]
  unfold appendStep
  simp only [Inj.ok]
  have hlook2 : fsLookup (fsSet (fsRemove s.fs (sev ++ ".log"))
      (sev ++ "." ++ toString now ++ ".log") content) (sev ++ ".log") = Option.none := by
    rw [fsLookup_set_ne _ _ _ _ hne.symm]
    exact fsLookup_remove_self ..
  constructor
  · rw [hlook2]
    simp only [Option.getD_none]
    rw [show ("" ++ msg ++ "
" : String) = msg ++ "
" from rfl]
    exact fsLookup_set_self ..
  · rw [fsLookup_set_ne _ _ _ _ hne]
    exact fsLookup_set_self ..

/-- C2 (witness): concrete instance of `C2_rotation` — `info.log` one
byte over the limit is renamed to `info.5.log` and the new line goes to
a fresh `info.log`. -/
theorem C2_rotation_witness :
    fsLookup (writeToFile Inj.ok "info" "m" 5 stHuge).fs ("info" ++ ".log")
        = Option.some ("m" ++ "\n")
  ∧ fsLookup (writeToFile Inj.ok "info" "m" 5 stHuge).fs
        ("info" ++ "." ++ toString (5 : Nat) ++ ".log")
        = Option.some hugeContent :=
  C2_rotation "info" "m" 5 stHuge hugeContent
    (by simp [stHuge, fsLookup, List.find?])
    (by
      rw [show hugeContent.utf8ByteSize = MAX_LOG_SIZE + 1 from charRep_utf8 _]
      omega)

/-- C3 (code bug, evaluation at the failing input): an `error`-severity
record of an `Error` named `"Error"` with a supplied (truthy) context
renders neither `Context:` line — the rebuild of both messages at lines
188-196 discards the context appended at lines 182-186.  The same call
at `info` severity keeps the context in both sinks, isolating the slip
to the error-name branch. -/
theorem C3_context_lost :
    (Logger.record envDev Severity.error "db" (Payload.err c3err) c3opts stEmpty).1.fs
      = [("error.log", "TS | ERROR | DB [Error] | boom" ++ "\n"),
         ("all.log", "TS | ERROR | DB [Error] | boom" ++ "\n")]
  ∧ (Logger.record envDev Severity.error "db" (Payload.err c3err) c3opts stEmpty).1.console
      = [ConsoleOut.line (colorize Severity.error
          (bold "TS | ERROR | DB" ++ " " ++ colorize Severity.error "[Error]"
            ++ " | boom"))]
  ∧ (Logger.record envDev Severity.info "db" (Payload.err c3err) c3opts stEmpty).1.fs
      = [("info.log", "TS | INFO | DB | boom\nContext: CTXDATA" ++ "\n"),
         ("all.log", "TS | INFO | DB | boom\nContext: CTXDATA" ++ "\n")] := by
  exact ⟨rfl, rfl, rfl⟩

/-- C4 (confirmed): in non-production mode, `error(layer, err)` without
the suppression option returns the re-raised value (the original
`Error`, or a new `Error` wrapping a raw payload) and its state already
contains the appends to `error.log` and `all.log`; with `noThrow` set it
raises nothing; and the two runs produce the identical state (same file
contents, journal, console). -/
theorem C4_reraise (ts : String) (now : Nat) (layer : String) (err : Payload)
    (o : Options) (s : LogState) :
    (Logger.error ⟨false, ts, now, Inj.ok, Inj.ok⟩ layer err { o with noThrow := false } s).2
        = Option.some (thrownOf err)
  ∧ (Logger.error ⟨false, ts, now, Inj.ok, Inj.ok⟩ layer err { o with noThrow := true } s).2
        = Option.none
  ∧ (Logger.error ⟨false, ts, now, Inj.ok, Inj.ok⟩ layer err { o with noThrow := false } s).1
        = (Logger.error ⟨false, ts, now, Inj.ok, Inj.ok⟩ layer err { o with noThrow := true } s).1
  ∧ (Logger.error ⟨false, ts, now, Inj.ok, Inj.ok⟩ layer err { o with noThrow := false } s).1.journal
        = s.journal
          ++ [("error" ++ ".log",
                (Logger.buildMessages ts Severity.error layer err
                  { o with trace := true, noThrow := false }).2),
              ("all" ++ ".log",
                (Logger.buildMessages ts Severity.error layer err
                  { o with trace := true, noThrow := false }).2)] := by
  refine ⟨rfl, rfl, rfl, ?_⟩
  show (Logger.record ⟨false, ts, now, Inj.ok, Inj.ok⟩ Severity.error layer err
      { o with trace := true, noThrow := false } s).1.journal = _
  rw [record_journal_ok]
  rfl

/-- C5 (confirmed): in production mode, `record` of severity `error` or
`warning` produces no console output while any other severity still
prints the colorized message; in non-production mode every severity
prints; and the file-system and journal effects are the same in both
modes (the file writes are still performed). -/
theorem C5_production_console (ts : String) (now : Nat) (i1 i2 : Inj)
    (type : Severity) (layer : String) (err : Payload) (opts : Options) (s : LogState) :
    ((Logger.record ⟨true, ts, now, i1, i2⟩ type layer err opts s).1.console
        = s.console
          ++ (if type = Severity.error ∨ type = Severity.warning then []
              else [ConsoleOut.line
                (colorize type (Logger.buildMessages ts type layer err opts).1)]))
  ∧ ((Logger.record ⟨false, ts, now, i1, i2⟩ type layer err opts s).1.console
        = s.console
          ++ [ConsoleOut.line
                (colorize type (Logger.buildMessages ts type layer err opts).1)])
  ∧ (Logger.record ⟨true, ts, now, i1, i2⟩ type layer err opts s).1.fs
        = (Logger.record ⟨false, ts, now, i1, i2⟩ type layer err opts s).1.fs
  ∧ (Logger.record ⟨true, ts, now, i1, i2⟩ type layer err opts s).1.journal
        = (Logger.record ⟨false, ts, now, i1, i2⟩ type layer err opts s).1.journal := by
  refine ⟨?_, ?_, ?_, ?_⟩
  · rw [record_console]
    simp
  · rw [record_console]
    simp
  · rw [record_fs, record_fs]
  · rw [record_journal, record_journal]

/-- C6 (amended): for every raw stack string, `parseStack` discards the
first line and then, in original order: every line matched by one of the
two frame shapes yields exactly one fully populated frame entry
(`anonymous` for the parenthesis-free shape), and every non-matching
line whose trimmed text is non-empty yields one raw entry holding the
TRIMMED line; non-matching lines that trim to the empty string are
dropped, so raw entries are trimmed, not verbatim, and their number can
be less than the number of malformed lines. -/
theorem C6_parseStack_shape (stack : String) :
    ((parseStack stack).countP StackItem.isFrame
        = (stackLines stack).countP matchesEither)
  ∧ ((parseStack stack).filter StackItem.isFrame
        = ((stackLines stack).filter matchesEither).map classifyLine)
  ∧ ((parseStack stack).filter StackItem.isRaw
        = ((stackLines stack).filter
            (fun l => !matchesEither l && !(trimCs l).isEmpty)).map
            (fun l => StackItem.raw (String.mk (trimCs l)))) := by
  by_cases hs : stack = ""
  · subst hs
    exact ⟨rfl, rfl, rfl⟩
  · have hp : parseStack stack = ((stackLines stack).map classifyLine).filter keepItem := by
      unfold parseStack
      rw [if_neg hs]
    refine ⟨?_, ?_, ?_⟩
    · rw [hp, List.countP_eq_length_filter, List.countP_eq_length_filter,
        List.filter_filter, List.filter_map, List.length_map]
      congr 1
      apply List.filter_congr
      intro l _
      exact frame_keep_eq l
    · rw [hp, List.filter_filter, List.filter_map]
      congr 1
      apply List.filter_congr
      intro l _
      exact frame_keep_eq l
    · rw [hp, List.filter_filter, List.filter_map]
      have hfc : List.filter
            ((fun a => (StackItem.isRaw a && keepItem a)) ∘ classifyLine)
            (stackLines stack)
          = List.filter (fun l => !matchesEither l && !(trimCs l).isEmpty)
            (stackLines stack) :=
        List.filter_congr (fun l _ => raw_keep_eq l)
      rw [hfc]
      apply List.map_congr_left
      intro l hl
      have hm : matchesEither l = false := by
        have := (List.mem_filter.mp hl).2
        simp only [Bool.and_eq_true, Bool.not_eq_true'] at this
        exact this.1
      exact classifyLine_of_not_match hm

/-- C6 (counterexample): the stack `"E\n "` has, after the discarded
first line, exactly one line (`" "`) matching neither frame shape, yet
`parseStack` returns no raw entry at all (the line trims to the empty
string and is dropped by the `item.file || item.raw` filter) — refuting
"J lines matching neither shape yield J raw entries kept verbatim". -/
theorem C6_counterexample :
    stackLines "E\n " = [[' ']]
  ∧ matchesEither [' '] = false
  ∧ parseStack "E\n " = [] := by
  exact ⟨rfl, rfl, rfl⟩

/-- C7 (confirmed): `group(layer, title, callback)` records an
info-level start marker, invokes the callback synchronously on the
post-start-marker state, and records an info-level end marker afterwards
— appending the end marker to the callback's journal and re-raising the
callback's exception, whatever it is (in particular even when the
callback raised). -/
theorem C7_group (prod : Bool) (ts1 ts2 : String) (now1 now2 : Nat)
    (layer title : String) (cb : LogState → LogState × Option Thrown) (s : LogState) :
    ((Logger.info ⟨prod, ts1, now1, Inj.ok, Inj.ok⟩ layer
        (Payload.str ("──── " ++ title ++ " ────")) {} s).1.journal
      = s.journal
        ++ [("info" ++ ".log",
              (Logger.buildMessages ts1 Severity.info layer
                (Payload.str ("──── " ++ title ++ " ────")) {}).2),
            ("all" ++ ".log",
              (Logger.buildMessages ts1 Severity.info layer
                (Payload.str ("──── " ++ title ++ " ────")) {}).2)])
  ∧ ((Logger.group ⟨prod, ts1, now1, Inj.ok, Inj.ok⟩ ⟨prod, ts2, now2, Inj.ok, Inj.ok⟩
        layer title cb s).1.journal
      = (cb (Logger.info ⟨prod, ts1, now1, Inj.ok, Inj.ok⟩ layer
            (Payload.str ("──── " ++ title ++ " ────")) {} s).1).1.journal
        ++ [("info" ++ ".log",
              (Logger.buildMessages ts2 Severity.info layer
                (Payload.str ("──── End " ++ title ++ " ────")) {}).2),
            ("all" ++ ".log",
              (Logger.buildMessages ts2 Severity.info layer
                (Payload.str ("──── End " ++ title ++ " ────")) {}).2)])
  ∧ ((Logger.group ⟨prod, ts1, now1, Inj.ok, Inj.ok⟩ ⟨prod, ts2, now2, Inj.ok, Inj.ok⟩
        layer title cb s).2
      = (cb (Logger.info ⟨prod, ts1, now1, Inj.ok, Inj.ok⟩ layer
            (Payload.str ("──── " ++ title ++ " ────")) {} s).1).2) := by
  have hstart : (Logger.info ⟨prod, ts1, now1, Inj.ok, Inj.ok⟩ layer
      (Payload.str ("──── " ++ title ++ " ────")) {} s).2 = Option.none := by
    rw [Logger.info, record_thrown]
    simp
  have hend : ∀ s2 : LogState, (Logger.info ⟨prod, ts2, now2, Inj.ok, Inj.ok⟩ layer
      (Payload.str ("──── End " ++ title ++ " ────")) {} s2).2 = Option.none := by
    intro s2
    rw [Logger.info, record_thrown]
    simp
  refine ⟨?_, ?_, ?_⟩
  · rw [Logger.info, record_journal_ok]
    rfl
  · simp only [Logger.group]
    rw [hstart]
    show (Logger.info _ _ _ _ (cb _).1).1.journal = _
    rw [Logger.info, record_journal_ok]
    rfl
  · simp only [Logger.group]
    rw [hstart]
    show (match (Logger.info ⟨prod, ts2, now2, Inj.ok, Inj.ok⟩ layer
        (Payload.str ("──── End " ++ title ++ " ────")) {} (cb _).1).2 with
      | Option.some e => Option.some e
      | Option.none => (cb _).2) = _
    rw [hend]

/-- C8 (confirmed): failures of the `fs` primitives inside `writeToFile`
are caught and never propagate.  When both appends fail, the record call
leaves the journal untouched (no write succeeded), reports
`Failed to write log: <message>` to standard error once per failed
write, and still produces exactly the console output and re-raise result
of a failure-free run; a failing `statSync` on an existing file, and a
failing `renameSync` during rotation of an oversized file, each only
report to standard error and leave the state (file system, journal,
console) otherwise unchanged. -/
theorem C8_write_failures (prod : Bool) (ts : String) (now : Nat) (m1 m2 : String)
    (type : Severity) (layer : String) (err : Payload) (opts : Options) (s : LogState) :
    ((Logger.record ⟨prod, ts, now, ⟨Option.none, Option.none, Option.some m1⟩,
          ⟨Option.none, Option.none, Option.some m2⟩⟩ type layer err opts s).1.journal
        = s.journal)
  ∧ ((Logger.record ⟨prod, ts, now, ⟨Option.none, Option.none, Option.some m1⟩,
          ⟨Option.none, Option.none, Option.some m2⟩⟩ type layer err opts s).1.stderr
        = s.stderr ++ [failMsg m1, failMsg m2])
  ∧ (∀ i1 i2 : Inj,
      (Logger.record ⟨prod, ts, now, i1, i2⟩ type layer err opts s).1.console
        = (Logger.record ⟨prod, ts, now, Inj.ok, Inj.ok⟩ type layer err opts s).1.console)
  ∧ (∀ i1 i2 : Inj,
      (Logger.record ⟨prod, ts, now, i1, i2⟩ type layer err opts s).2
        = (Logger.record ⟨prod, ts, now, Inj.ok, Inj.ok⟩ type layer err opts s).2)
  ∧ (∀ (mf t msg c : String) (s' : LogState),
      fsLookup s'.fs (t ++ ".log") = Option.some c →
      writeToFile ⟨Option.some mf, Option.none, Option.none⟩ t msg now s'
        = { s' with stderr := s'.stderr ++ [failMsg mf] })
  ∧ (∀ (mf t msg c : String) (s' : LogState),
      fsLookup s'.fs (t ++ ".log") = Option.some c →
      MAX_LOG_SIZE < c.utf8ByteSize →
      writeToFile ⟨Option.none, Option.some mf, Option.none⟩ t msg now s'
        = { s' with stderr := s'.stderr ++ [failMsg mf] }) := by
  refine ⟨?_, ?_, ?_, ?_, ?_, ?_⟩
  · rw [record_journal]
    rw [(writeToFile_appendFail m2 "all" _ now _).1]
    rw [(writeToFile_appendFail m1 type.key _ now _).1]
  · rw [record_stderr]
    rw [(writeToFile_appendFail m2 "all" _ now _).2]
    rw [(writeToFile_appendFail m1 type.key _ now _).2]
    simp
  · intro i1 i2
    rw [record_console, record_console]
  · intro i1 i2
    rw [record_thrown, record_thrown]
  · intro mf t msg c s' h
    exact writeToFile_statFail mf t msg Option.none Option.none now s' c h
  · intro mf t msg c s' h hbig
    exact writeToFile_renameFail mf t msg Option.none now s' c h hbig

/-- C8 (witness): concrete instances — a `statSync` failure with message
`deny` on a state whose `info.log` exists, and a `renameSync` failure
with message `deny` on a state whose `info.log` is over the size limit,
are each caught: the only effect is the `Failed to write log: deny`
report on standard error. -/
theorem C8_write_failures_witness :
    (writeToFile ⟨Option.some "deny", Option.none, Option.none⟩ "info" "m" 0 stOne
      = { stOne with stderr := stOne.stderr ++ [failMsg "deny"] })
  ∧ (writeToFile ⟨Option.none, Option.some "deny", Option.none⟩ "info" "m" 0 stHuge
      = { stHuge with stderr := stHuge.stderr ++ [failMsg "deny"] }) :=
  ⟨(C8_write_failures false "TS" 0 "e1" "e2" Severity.info "x" (Payload.str "m")
      {} stOne).2.2.2.2.1 "deny" "info" "m" "old" stOne
    (by simp [stOne, fsLookup, List.find?]),
   (C8_write_failures false "TS" 0 "e1" "e2" Severity.info "x" (Payload.str "m")
      {} stHuge).2.2.2.2.2 "deny" "info" "m" hugeContent stHuge
    (by simp [stHuge, fsLookup, List.find?])
    (by
      rw [show hugeContent.utf8ByteSize = MAX_LOG_SIZE + 1 from charRep_utf8 _]
      omega)⟩

/-- C9 (confirmed): `table(layer, data)` with a non-empty array renders
the rows to the console and appends one timestamped, serialized line to
the `log` file sink; with an empty array or a non-array value it is a
no-op (no console output, no write, no state change at all). -/
theorem C9_table (prod : Bool) (ts : String) (now : Nat)
    (serialize : List String → String) (layer : String) (rows : List String)
    (s : LogState) (h : rows ≠ []) :
    ((Logger.table ⟨prod, ts, now, Inj.ok, Inj.ok⟩ serialize layer
        (Logger.TableData.arr rows) s).console
      = s.console ++ [ConsoleOut.table rows])
  ∧ ((Logger.table ⟨prod, ts, now, Inj.ok, Inj.ok⟩ serialize layer
        (Logger.TableData.arr rows) s).journal
      = s.journal
        ++ [("log" ++ ".log",
              ts ++ " | TABLE | " ++ jsToUpper layer ++ "\n" ++ serialize rows)])
  ∧ (Logger.table ⟨prod, ts, now, Inj.ok, Inj.ok⟩ serialize layer
        (Logger.TableData.arr []) s) = s
  ∧ (Logger.table ⟨prod, ts, now, Inj.ok, Inj.ok⟩ serialize layer
        Logger.TableData.notArray s) = s := by
  have hlen : 0 < rows.length := List.length_pos.mpr h
  refine ⟨?_, ?_, rfl, rfl⟩
  · simp only [Logger.table]
    rw [if_pos hlen, writeToFile_console]
  · simp only [Logger.table]
    rw [if_pos hlen, writeToFile_journal_ok]

/-- C9 (witness): concrete instance of `C9_table` with one row. -/
theorem C9_table_witness :
    ((Logger.table ⟨false, "TS", 0, Inj.ok, Inj.ok⟩ serializeJ "db"
        (Logger.TableData.arr ["r"]) stEmpty).console
      = stEmpty.console ++ [ConsoleOut.table ["r"]])
  ∧ ((Logger.table ⟨false, "TS", 0, Inj.ok, Inj.ok⟩ serializeJ "db"
        (Logger.TableData.arr ["r"]) stEmpty).journal
      = stEmpty.journal
        ++ [("log" ++ ".log",
              "TS" ++ " | TABLE | " ++ jsToUpper "db" ++ "\n" ++ serializeJ ["r"])])
  ∧ (Logger.table ⟨false, "TS", 0, Inj.ok, Inj.ok⟩ serializeJ "db"
        (Logger.TableData.arr []) stEmpty) = stEmpty
  ∧ (Logger.table ⟨false, "TS", 0, Inj.ok, Inj.ok⟩ serializeJ "db"
        Logger.TableData.notArray stEmpty) = stEmpty :=
  C9_table false "TS" 0 serializeJ "db" ["r"] stEmpty (by decide)

/-- C10 (confirmed): `all(layer, message)` completes normally (returns
no re-raise value) and appends the identical file line twice to the
canonical `all.log` name; a `record` of any other severity appends the
line once to that severity's file and once to `all.log`, two distinct
file names. -/
theorem C10_all_double_write (prod : Bool) (ts : String) (now : Nat)
    (layer : String) (msg : Payload) (opts : Options) (s : LogState) :
    ((Logger.all ⟨prod, ts, now, Inj.ok, Inj.ok⟩ layer msg opts s).1.journal
      = s.journal
        ++ [("all" ++ ".log", (Logger.buildMessages ts Severity.all layer msg opts).2),
            ("all" ++ ".log", (Logger.buildMessages ts Severity.all layer msg opts).2)])
  ∧ ((Logger.all ⟨prod, ts, now, Inj.ok, Inj.ok⟩ layer msg opts s).2 = Option.none)
  ∧ (∀ type : Severity, type ≠ Severity.all →
      ((Logger.record ⟨prod, ts, now, Inj.ok, Inj.ok⟩ type layer msg opts s).1.journal
        = s.journal
          ++ [(type.key ++ ".log", (Logger.buildMessages ts type layer msg opts).2),
              ("all" ++ ".log", (Logger.buildMessages ts type layer msg opts).2)])
      ∧ type.key ++ ".log" ≠ "all" ++ ".log") := by
  refine ⟨?_, ?_, ?_⟩
  · rw [Logger.all, record_journal_ok]
    rfl
  · rw [Logger.all, record_thrown]
    simp
  · intro type htype
    refine ⟨record_journal_ok .., ?_⟩
    cases type <;> simp_all [Severity.key]

/-- C10 (witness): concrete instance of `C10_all_double_write` at
severity `info`. -/
theorem C10_all_double_write_witness :
    ((Logger.record ⟨false, "TS", 0, Inj.ok, Inj.ok⟩ Severity.info "db"
        (Payload.str "m") {} stEmpty).1.journal
      = stEmpty.journal
        ++ [(Severity.info.key ++ ".log",
              (Logger.buildMessages "TS" Severity.info "db" (Payload.str "m") {}).2),
            ("all" ++ ".log",
              (Logger.buildMessages "TS" Severity.info "db" (Payload.str "m") {}).2)])
    ∧ Severity.info.key ++ ".log" ≠ "all" ++ ".log" :=
  (C10_all_double_write false "TS" 0 "db" (Payload.str "m") {} stEmpty).2.2
    Severity.info (by decide)
